import Mathlib

/-!
Shallow embedding of the flexspace chat widget core:
the VariableExtractor (response parsing), ChatStateStore (session state),
ChatHistoryStore (persisted history), EventBus (pub/sub) and
ChatOrchestrator (sendMessage / checkIfChatEnded / endChat), translated
from the JavaScript sources, together with theorems settling the frozen
claims about them.
-/

namespace FlexSpace

/-- Model of a JavaScript value as it appears in vendor API payloads:
null, undefined, booleans, numbers, strings, arrays and plain objects
(an object is an insertion-ordered association list of own fields). -/
inductive JSVal where
  | vNull
  | vUndefined
  | vBool (b : Bool)
  | vNum (n : Int)
  | vStr (s : String)
  | vArr (elems : List JSVal)
  | vObj (fields : List (String × JSVal))

namespace JSVal

/-- JavaScript truthiness of a value (`if (x)`): null, undefined, false,
0 and the empty string are falsy; arrays and objects are always truthy. -/
def jsTruthy : JSVal → Bool
  | vNull => false
  | vUndefined => false
  | vBool b => b
  | vNum n => n != 0
  | vStr s => s != ""
  | vArr _ => true
  | vObj _ => true

/-- The test `typeof x === 'object'`: true for plain objects, arrays and
(famously) null. -/
def typeofIsObject : JSVal → Bool
  | vObj _ => true
  | vArr _ => true
  | vNull => true
  | _ => false

/-- The test `typeof x === 'string'`. -/
def typeofIsString : JSVal → Bool
  | vStr _ => true
  | _ => false

/-- Total property read `x.k` for receivers on which JavaScript does not
throw: absent fields and fields of primitives read as undefined. Reads on
null/undefined (which throw in JavaScript) are modelled by getFieldE. -/
def getF : JSVal → String → JSVal
  | vObj fs, k => ((fs.find? (fun p => p.1 = k)).map (fun p => p.2)).getD vUndefined
  | _, _ => vUndefined

/-- Property read `x.k` as performed by JavaScript: throws a TypeError
when the receiver is null or undefined, otherwise reads as getF. -/
def getFieldE : JSVal → String → Except String JSVal
  | vNull, k => .error ("TypeError: cannot read property " ++ k ++ " of null")
  | vUndefined, k => .error ("TypeError: cannot read property " ++ k ++ " of undefined")
  | v, k => .ok (getF v k)

/-- Optional-chaining read `x?.k`: yields undefined instead of throwing
when the receiver is null or undefined. -/
def getOpt (v : JSVal) (k : String) : JSVal :=
  match v with
  | vNull => vUndefined
  | vUndefined => vUndefined
  | x => getF x k

/-- Own enumerable entries of a value, as `Object.keys`/`Object.entries`
enumerate them: object fields in insertion order, array elements under
their index keys, nothing for primitives. -/
def objEntries : JSVal → List (String × JSVal)
  | vObj fs => fs
  | vArr es => (es.enum.map (fun p => (toString p.1, p.2)))
  | _ => []

/-- Strict equality `x === "t"` against a string literal. -/
def isStrVal : JSVal → String → Bool
  | vStr s, t => s == t
  | _, _ => false

/-- Strict equality `x === true`. -/
def isTrueVal : JSVal → Bool
  | vBool true => true
  | _ => false

/-- The test `x !== null && x !== undefined`. -/
def isPresent : JSVal → Bool
  | vNull => false
  | vUndefined => false
  | _ => true

end JSVal

/-- Whether the pattern characters match the front of the text. -/
def leadMatch : List Char → List Char → Bool
  | [], _ => true
  | _ :: _, [] => false
  | a :: p, b :: s => a == b && leadMatch p s

/-- Whether the pattern occurs anywhere in the text. -/
def subSearch (pat : List Char) : List Char → Bool
  | [] => leadMatch pat []
  | c :: rest => leadMatch pat (c :: rest) || subSearch pat rest

/-- Case-sensitive substring test, `String.prototype.includes`. -/
def strIncludes (s sub : String) : Bool :=
  subSearch sub.data s.data

/-- Model of String.prototype.trim: strip surrounding whitespace. -/
def jsTrim (s : String) : String :=
  String.mk (((s.data.dropWhile Char.isWhitespace).reverse.dropWhile
    Char.isWhitespace).reverse)

/-- Model of String.prototype.toLowerCase (over the ASCII range the
greeting check cares about). -/
def jsToLower (s : String) : String :=
  String.mk (s.data.map Char.toLower)

/-- Model of String.prototype.substring(0, n). -/
def jsTake (s : String) (n : Nat) : String :=
  String.mk (s.data.take n)

open JSVal

/-! ## VariableExtractor (src/unnamed/part_015) -/

/-- VariableExtractor.findVariables: probes the four nesting paths in
order (`variables`, `metadata.variables`, `extracted_variables`,
`state.variables`) and returns the first value that is truthy and of
typeof object; returns null when no path holds one. -/
def findVariables (data : JSVal) : Option JSVal :=
  let p1 := getF data "variables"
  if jsTruthy p1 && typeofIsObject p1 then some p1
  else
    let p2 := getOpt (getF data "metadata") "variables"
    if jsTruthy p2 && typeofIsObject p2 then some p2
    else
      let p3 := getF data "extracted_variables"
      if jsTruthy p3 && typeofIsObject p3 then some p3
      else
        let p4 := getOpt (getF data "state") "variables"
        if jsTruthy p4 && typeofIsObject p4 then some p4
        else none

/-- The per-entry filter of VariableExtractor.extract: an entry is kept
unless its value is null, undefined or the empty string. -/
def keepEntry (p : String × JSVal) : Bool :=
  isPresent p.2 && !isStrVal p.2 ""

/-- Drops the null/undefined/empty-string entries of a variables object,
as the forEach loop in VariableExtractor.extract builds `filtered`. -/
def filterVars (fs : List (String × JSVal)) : List (String × JSVal) :=
  fs.filter keepEntry

/-- VariableExtractor.extract: null for non-object inputs, otherwise the
findVariables result with empty values dropped, or null when nothing
usable remains. -/
def extract (data : JSVal) : Option (List (String × JSVal)) :=
  if !jsTruthy data || !typeofIsObject data then none
  else
    match findVariables data with
    | none => none
    | some vars =>
      let filtered := filterVars (objEntries vars)
      if filtered.length > 0 then some filtered else none

/-- VariableExtractor.extractBotResponse: last agent-role entry with
truthy content of a messages array, else a string `response` field, else
a string `output_text` field, else the placeholder reply. A read on a
null/undefined receiver propagates as a thrown TypeError. -/
def extractBotResponse (data : JSVal) : Except String JSVal := do
  let msgs ← getFieldE data "messages"
  match msgs with
  | vArr es =>
    match es.reverse.find? (fun m => isStrVal (getF m "role") "agent" && jsTruthy (getF m "content")) with
    | some m => return getF m "content"
    | none => nonArrayPaths
  | _ => nonArrayPaths
where
  nonArrayPaths : Except String JSVal := do
    let r ← getFieldE data "response"
    if typeofIsString r then return r
    else
      let o ← getFieldE data "output_text"
      if typeofIsString o then return o
      else return vStr "No response received"

/-- VariableExtractor.isChatEnded: string mode is a substring test for
the two vendor phrases; object mode (entered by any value whose typeof is
object, so also by null) checks the status strings, the boolean flags and
the presence of a termination timestamp. On null every field read throws,
modelled as the error case. -/
def isChatEnded (data : JSVal) : Except String Bool :=
  if typeofIsString data then
    match data with
    | vStr s => .ok (strIncludes s "Chat already ended" || strIncludes s "chat ended")
    | _ => .ok false
  else if typeofIsObject data then do
    let chatStatus ← getFieldE data "chat_status"
    let status ← getFieldE data "status"
    let ended ← getFieldE data "ended"
    let isEnded ← getFieldE data "is_ended"
    let finished ← getFieldE data "finished"
    let endedAt ← getFieldE data "ended_at"
    let finishedAt ← getFieldE data "finished_at"
    let endTime ← getFieldE data "end_time"
    return (isStrVal chatStatus "ended" ||
      isStrVal status "ended" || isStrVal status "finished" ||
      isStrVal status "completed" || isStrVal status "error" ||
      isTrueVal ended || isTrueVal isEnded || isTrueVal finished ||
      isPresent endedAt || isPresent finishedAt || isPresent endTime)
  else .ok false

/-! ## ChatStateStore (src/public/src/services/ChatStateStore.js) -/

/-- A message of the local conversation history: role, content,
creation timestamp. Content is a JSVal because the agent reply is
whatever extractBotResponse pulled from the vendor payload. -/
structure Message where
  role : String
  content : JSVal
  timestamp : Nat

/-- The mutable fields of ChatStateStore. -/
structure ChatStateStore where
  chatId : Option String
  messages : List Message
  isActive : Bool
  variablesMap : List (String × JSVal)
  createdAt : Option Nat
  shouldResetChat : Bool

namespace ChatStateStore

/-- The initial store produced by the constructor. -/
def init : ChatStateStore :=
  { chatId := none, messages := [], isActive := false, variablesMap := [],
    createdAt := none, shouldResetChat := false }

/-- Truthiness of the stored chat id (`!!this._chatId`): false for null
and for the empty string. -/
def chatIdTruthy (s : ChatStateStore) : Bool :=
  match s.chatId with
  | none => false
  | some c => c != ""

/-- ChatStateStore.initChat: set the id, activate, clear messages, stamp
the creation time. -/
def initChat (s : ChatStateStore) (chatId : String) (now : Nat) : ChatStateStore :=
  { s with chatId := some chatId, isActive := true, messages := [], createdAt := some now }

/-- ChatStateStore.addMessage: append a message built from role, content
and the current time; also returns the created message. -/
def addMessage (s : ChatStateStore) (role : String) (content : JSVal) (now : Nat) :
    ChatStateStore × Message :=
  let message : Message := { role := role, content := content, timestamp := now }
  ({ s with messages := s.messages ++ [message] }, message)

/-- ChatStateStore.setEnded: clear the active flag. -/
def setEnded (s : ChatStateStore) : ChatStateStore :=
  { s with isActive := false }

/-- JavaScript object assignment `obj[name] = value` on the variables
map: replaces the value in place when the key exists, otherwise appends
the new entry (key insertion order is preserved). -/
def assocSet (vars : List (String × JSVal)) (name : String) (value : JSVal) :
    List (String × JSVal) :=
  if vars.any (fun p => p.1 = name) then
    vars.map (fun p => if p.1 = name then (name, value) else p)
  else
    vars ++ [(name, value)]

/-- ChatStateStore.setVariable. -/
def setVariable (s : ChatStateStore) (name : String) (value : JSVal) : ChatStateStore :=
  { s with variablesMap := assocSet s.variablesMap name value }

/-- ChatStateStore.clearVariables. -/
def clearVariables (s : ChatStateStore) : ChatStateStore :=
  { s with variablesMap := [] }

/-- ChatStateStore.isActiveChat: `this._isActive && !!this._chatId`. -/
def isActiveChat (s : ChatStateStore) : Bool :=
  s.isActive && chatIdTruthy s

/-- ChatStateStore.isRecentlyCreated: truthiness of
`this._createdAt && (Date.now() - this._createdAt) < withinMs` — false
when createdAt is null (or the number 0, which is falsy), otherwise the
age comparison at the current time. -/
def isRecentlyCreated (s : ChatStateStore) (withinMs : Nat) (now : Nat) : Bool :=
  match s.createdAt with
  | none => false
  | some t => (t != 0) && (now - t < withinMs)

/-- ChatStateStore.reset: all fields back to their initial values
(shouldResetChat is not touched by reset). -/
def reset (s : ChatStateStore) : ChatStateStore :=
  { s with
    chatId := none
    messages := []
    isActive := false
    variablesMap := []
    createdAt := none }

end ChatStateStore

/-! ## ChatHistoryStore (src/unnamed/part_013) -/

/-- A persisted chat session entry. The `date` field holds the creation
time from which the ISO display string is derived. -/
structure ChatSession where
  id : String
  timestamp : Nat
  date : Nat
  messages : List Message
  variablesMap : List (String × JSVal)
  preview : String

/-- A string-method call (`toLowerCase`, `substring`, `length` uses) on
a value: yields the string for string receivers and throws a TypeError
for any other receiver, as JavaScript does when the method is absent. -/
def jsStrMethod (v : JSVal) : Except String String :=
  match v with
  | vStr s => .ok s
  | _ => .error "TypeError: not a function"

/-- Array.prototype.find with a predicate that may throw: a thrown
predicate aborts the search and propagates. -/
def findE {α : Type} (p : α → Except String Bool) : List α → Except String (Option α)
  | [] => .ok none
  | a :: l =>
    match p a with
    | .error e => .error e
    | .ok true => .ok (some a)
    | .ok false => findE p l

/-- The first find predicate of getPreview:
`m.role === 'user' && m.content && m.content.toLowerCase() !== 'hello'`.
The short-circuit order matters: the toLowerCase call runs only for
user-role messages with truthy content, and throws when that content is
not a string. -/
def previewUserPred (m : Message) : Except String Bool :=
  if m.role == "user" then
    if jsTruthy m.content then
      match jsStrMethod m.content with
      | .error e => .error e
      | .ok s => .ok (jsToLower s != "hello")
    else .ok false
  else .ok false

/-- The fallback find predicate of getPreview:
`m.role === 'agent' && m.content`; it calls no string method and never
throws. -/
def previewAgentPred (m : Message) : Except String Bool :=
  .ok (m.role == "agent" && jsTruthy m.content)

/-- The `substring(0, 100)` truncation with ellipsis of getPreview. -/
def truncatePreview (s : String) : String :=
  jsTake s 100 ++ (if s.length > 100 then "..." else "")

/-- ChatHistoryStore.getPreview: first user message with truthy content
other than a case-insensitive "hello", truncated to 100 characters with
an ellipsis; else the first agent message with truthy content, truncated
the same way; else the placeholder. The toLowerCase/substring calls on a
truthy non-string content throw a TypeError that propagates to the
caller. -/
def getPreview (messages : List Message) : Except String String :=
  match findE previewUserPred messages with
  | .error e => .error e
  | .ok (some userMsg) =>
    match jsStrMethod userMsg.content with
    | .error e => .error e
    | .ok s => .ok (truncatePreview s)
  | .ok none =>
    match findE previewAgentPred messages with
    | .error e => .error e
    | .ok (some agentMsg) =>
      match jsStrMethod agentMsg.content with
      | .error e => .error e
      | .ok s => .ok (truncatePreview s)
    | .ok none => .ok "New conversation"

/-- Array.prototype.findIndex: index of the first element satisfying
the predicate, or null (undefined, -1 for the index form) when none
does. -/
def jsFindIndex {α : Type} (p : α → Bool) : List α → Option Nat
  | [] => none
  | a :: l => if p a then some 0 else (jsFindIndex p l).map (fun i => i + 1)

/-- Strict equality `s === chatId` between a string and a possibly-null
string: null compares unequal to every string. -/
def strictEqOptStr (chatId : Option String) (s : String) : Bool :=
  match chatId with
  | some t => t == s
  | none => false

/-- ChatHistoryStore state: the in-memory `this.history` array and the
serialized copy last written to localStorage by `save()`. -/
structure ChatHistoryStore where
  history : List ChatSession
  storage : List ChatSession

/-- MAX_CHATS. -/
def MAX_CHATS : Nat := 50

namespace ChatHistoryStore

/-- A store loaded from empty localStorage. -/
def empty : ChatHistoryStore := { history := [], storage := [] }

/-- ChatHistoryStore.save: serialize `this.history.slice(-MAX_CHATS)` —
the last MAX_CHATS entries of the in-memory list — to localStorage. The
in-memory list itself is not truncated. -/
def save (h : ChatHistoryStore) : ChatHistoryStore :=
  { h with storage := h.history.drop (h.history.length - MAX_CHATS) }

/-- ChatHistoryStore.saveChat: ignore empty message lists; build the
session entry (falling back to a local id when chatId is falsy, mapping
each message to its role/content/timestamp fields, computing the
preview — which throws a TypeError before anything is written when a
truthy non-string content reaches getPreview's string methods); replace
the entry with the same id when one exists, else append; then persist
via save. -/
def saveChat (h : ChatHistoryStore) (chatId : Option String) (messages : List Message)
    (vars : List (String × JSVal)) (now : Nat) : Except String ChatHistoryStore :=
  if messages.isEmpty then .ok h
  else
    match getPreview messages with
    | .error e => .error e
    | .ok preview =>
      let chatSession : ChatSession :=
        { id := match chatId with
            | some c => if c = "" then "local_" ++ toString now else c
            | none => "local_" ++ toString now,
          timestamp := now,
          date := now,
          messages := messages.map (fun m =>
            { role := m.role, content := m.content, timestamp := m.timestamp }),
          variablesMap := vars,
          preview := preview }
      let history :=
        match jsFindIndex (fun c => strictEqOptStr chatId c.id) h.history with
        | some existingIndex => h.history.set existingIndex chatSession
        | none => h.history ++ [chatSession]
      .ok (save { h with history := history })

/-- ChatHistoryStore.getAll: a reversed copy of the in-memory list
(newest first). -/
def getAll (h : ChatHistoryStore) : List ChatSession :=
  h.history.reverse

/-- ChatHistoryStore.getById: first in-memory entry with the given id,
or null. -/
def getById (h : ChatHistoryStore) (chatId : String) : Option ChatSession :=
  h.history.find? (fun c => c.id = chatId)

/-- ChatHistoryStore.deleteChat. -/
def deleteChat (h : ChatHistoryStore) (chatId : String) : ChatHistoryStore :=
  save { h with history := h.history.filter (fun c => c.id != chatId) }

/-- ChatHistoryStore.count: length of the in-memory list. -/
def count (h : ChatHistoryStore) : Nat :=
  h.history.length

end ChatHistoryStore

/-! ## ChatOrchestrator (src/unnamed/part_012)

The orchestrator methods are embedded as pure functions of the current
state, the current time, and the already-resolved outcome of the single
gateway call each method performs (ok payload or rejected error
message). Each returns the successor state, the ordered list of events
emitted on the bus during the call, and the method's own result
(a thrown error is the Except error case). -/

/-- Events emitted on the orchestrator's event bus, with their payloads.
The chatEnded payload carries the autoEnded field as an Option because
the endChat emission omits the field entirely. -/
inductive OEvent where
  | chatCreated (chatId : String)
  | messageSent (m : Message)
  | messageReceived (m : Message)
  | chatEnded (chatId : Option String) (autoEnded : Option Bool)
  | variablesUpdated (vars : List (String × JSVal))
  | variableUpdated (name : String) (value : JSVal)
  | variablesCleared
  | errorEvt (msg : String)

/-- The orchestrator-owned state: the injected ChatStateStore plus the
chatHistoryStore singleton it writes through saveToHistory. -/
structure OrchState where
  store : ChatStateStore
  hist : ChatHistoryStore

/-- Errors sendMessage can throw: the no-active-session contract error,
or the rethrown gateway/parsing error. -/
inductive SendErr where
  | noActiveChat
  | rethrown (msg : String)

namespace ChatOrchestrator

/-- ChatOrchestrator.saveToHistory: write the current session to the
history store when it has at least one message; a TypeError thrown by
saveChat's preview computation propagates to the caller. -/
def saveToHistory (os : OrchState) (now : Nat) : Except String OrchState :=
  if os.store.messages.length > 0 then
    match os.hist.saveChat os.store.chatId os.store.messages os.store.variablesMap now with
    | .error e => .error e
    | .ok h2 => .ok { os with hist := h2 }
  else .ok os

/-- The ended transition shared by sendMessage (both branches) and
checkIfChatEnded: save to history, mark ended, emit chatEnded with the
stored chat id and autoEnded true. A throw from saveToHistory aborts the
transition before setEnded and before any event, leaving state as it
was. -/
def endedTransition (os : OrchState) (now : Nat) :
    Except String (OrchState × List OEvent) :=
  match saveToHistory os now with
  | .error e => .error e
  | .ok os1 =>
    let os2 := { os1 with store := os1.store.setEnded }
    .ok (os2, [.chatEnded os2.store.chatId (some true)])

/-- The catch block of sendMessage: when the error text carries the
vendor end-of-session phrase, perform the ended transition; otherwise
emit the error event; either way an error is rethrown. A TypeError
thrown by saveToHistory inside the catch block itself escapes uncaught
(and the original error is replaced by it). -/
def sendCatch (os : OrchState) (evs : List OEvent) (errMsg : String) (now : Nat) :
    OrchState × List OEvent × Except SendErr JSVal :=
  match isChatEnded (vStr errMsg) with
  | .ok true =>
    match endedTransition os now with
    | .ok (os1, evs1) => (os1, evs ++ evs1, .error (.rethrown errMsg))
    | .error e2 => (os, evs, .error (.rethrown e2))
  | _ =>
    (os, evs ++ [.errorEvt errMsg], .error (.rethrown errMsg))

/-- Steps 4-6 of sendMessage's try block: extract and merge variables,
extract the bot reply (whose thrown TypeError on a null payload reaches
the catch block), append it as the agent message and emit
messageReceived. -/
def sendSteps (os2 : OrchState) (evs2 : List OEvent) (data : JSVal) (now : Nat) :
    OrchState × List OEvent × Except SendErr JSVal :=
  let (os3, evs3) : OrchState × List OEvent :=
    match extract data with
    | some vars =>
      let st := vars.foldl
        (fun (st : ChatStateStore) (p : String × JSVal) => st.setVariable p.1 p.2)
        os2.store
      ({ os2 with store := st }, evs2 ++ [OEvent.variablesUpdated st.variablesMap])
    | none => (os2, evs2)
  match extractBotResponse data with
  | .error thrown => sendCatch os3 evs3 thrown now
  | .ok botContent =>
    let (st, botMessage) := os3.store.addMessage "agent" botContent now
    ({ os3 with store := st }, evs3 ++ [.messageReceived botMessage], .ok data)

/-- ChatOrchestrator.sendMessage. api is the resolved outcome of
apiClient.sendMessage(chatId, message): ok payload or rejection message.
Any throw inside the try block (isChatEnded on null, the history
preview TypeError, extractBotResponse on null) lands in the catch
block. The fixed response delay and the deferred 500 ms status check
mutate no state and are not part of the returned transition. -/
def sendMessage (os : OrchState) (message : String) (skipUserMessage : Bool)
    (now : Nat) (api : Except String JSVal) :
    OrchState × List OEvent × Except SendErr JSVal :=
  if !os.store.isActiveChat then (os, [], .error .noActiveChat)
  else
    let (os1, evs1) :=
      if !skipUserMessage && jsTrim message != "" then
        let (st, userMessage) := os.store.addMessage "user" (vStr message) now
        ({ os with store := st }, [.messageSent userMessage])
      else (os, [])
    match api with
    | .error errMsg => sendCatch os1 evs1 errMsg now
    | .ok data =>
      match isChatEnded data with
      | .error thrown => sendCatch os1 evs1 thrown now
      | .ok endedFlag =>
        if endedFlag then
          match endedTransition os1 now with
          | .ok (os2, evs2) => sendSteps os2 (evs1 ++ evs2) data now
          | .error thrown => sendCatch os1 evs1 thrown now
        else sendSteps os1 evs1 data now

/-- ChatOrchestrator.checkIfChatEnded. api is the resolved outcome of
apiClient.getChatDetails(chatId). Returns false without touching state
when there is no usable session, within the 2000 ms creation grace
window, on gateway failure, and on any throw inside the try block
(isChatEnded on null, the history preview TypeError) — all caught;
performs the ended transition and returns true only when the fetched
details signal an ended chat. -/
def checkIfChatEnded (os : OrchState) (now : Nat) (api : Except String JSVal) :
    OrchState × List OEvent × Bool :=
  if !os.store.chatIdTruthy || !os.store.isActive then (os, [], false)
  else if os.store.isRecentlyCreated 2000 now then (os, [], false)
  else
    match api with
    | .error _ => (os, [], false)
    | .ok chatDetails =>
      match isChatEnded chatDetails with
      | .error _ => (os, [], false)
      | .ok true =>
        match endedTransition os now with
        | .ok (os1, evs1) => (os1, evs1, true)
        | .error _ => (os, [], false)
      | .ok false => (os, [], false)

/-- ChatOrchestrator.endChat. api is the resolved outcome of
apiClient.endChat(chatId). With no usable session it only logs a warning
and resolves. On gateway success it resets the whole store and emits
chatEnded carrying just the chat id (no autoEnded field); on gateway
failure it emits the error event, rethrows, and leaves state unchanged. -/
def endChat (os : OrchState) (api : Except String Unit) :
    OrchState × List OEvent × Except String Unit :=
  if !os.store.chatIdTruthy || !os.store.isActive then (os, [], .ok ())
  else
    match api with
    | .ok _ =>
      let chatId := os.store.chatId
      ({ os with store := os.store.reset }, [.chatEnded chatId none], .ok ())
    | .error errMsg =>
      (os, [.errorEvt errMsg], .error errMsg)

end ChatOrchestrator

/-! ## EventBus (src/public/src/utils/EventBus.js)

Handlers are modelled as pure functions from the payload to an outcome:
ok with an abstract result, or error when the handler throws. The Set a
JavaScript Map entry holds iterates in insertion order, so the handlers
of one event are an insertion-ordered list (each with the identity used
by Set dedup). -/

/-- One registered handler: its identity in the Set and its behavior. -/
structure Handler (P R : Type) where
  id : Nat
  fn : P → Except String R

/-- The listeners registered for one event, insertion ordered. -/
structure EventBus (P R : Type) where
  listeners : List (String × List (Handler P R))

namespace EventBus

/-- The handler list stored for an event (empty when the Map has no
entry). -/
def listenersOf (bus : EventBus P R) (event : String) : List (Handler P R) :=
  (((bus.listeners.find? (fun p => p.1 = event)).map (fun p => p.2)).getD [])

/-- EventBus.on: add the callback to the event's Set (created on first
use); adding an already-present member leaves a Set unchanged. -/
def onEvt (bus : EventBus P R) (event : String) (h : Handler P R) : EventBus P R :=
  if bus.listeners.any (fun p => p.1 = event) then
    { listeners := bus.listeners.map (fun p =>
        if p.1 = event then
          (p.1, if p.2.any (fun g => g.id = h.id) then p.2 else p.2 ++ [h])
        else p) }
  else
    { listeners := bus.listeners ++ [(event, [h])] }

/-- The forEach loop of EventBus.emit: each callback is invoked with the
payload inside try/catch, a thrown error is logged and iteration
continues with the next callback. The returned trace records, in
invocation order, each handler's identity and outcome. -/
def runHandlers (hs : List (Handler P R)) (payload : P) :
    List (Nat × Except String R) :=
  match hs with
  | [] => []
  | h :: rest =>
    match h.fn payload with
    | .ok r => (h.id, .ok r) :: runHandlers rest payload
    | .error e => (h.id, .error e) :: runHandlers rest payload

/-- EventBus.emit: run every handler currently registered for the event
over the payload. -/
def emit (bus : EventBus P R) (event : String) (payload : P) :
    List (Nat × Except String R) :=
  runHandlers (listenersOf bus event) payload

end EventBus

/-! ## Reference-level model of the messages getter (ChatStateStore.js
line 38, ChatOrchestrator.getMessages)

To reason about aliasing, message objects live in a heap addressed by
allocation index and the store's internal `_messages` array is a list of
references. The getter `[...this._messages]` builds a fresh array
containing the same references. -/

/-- A message object on the heap. -/
structure MsgObj where
  role : String
  content : String
  timestamp : Nat

/-- The heap of allocated message objects, addressed by index. -/
abbrev MsgHeap := List MsgObj

/-- The internal `_messages` array: references into the heap. -/
structure StoreRefs where
  msgRefs : List Nat

/-- The messages getter `[...this._messages]`: a new array whose
elements are the same object references as the internal array; the
orchestrator's getMessages getter returns this copy unchanged. -/
def messagesGetter (s : StoreRefs) : List Nat :=
  s.msgRefs.map (fun r => r)

/-- The message contents observable through the store's internal
references: what the internal state denotes once references are
followed. -/
def observedMessages (heap : MsgHeap) (s : StoreRefs) : List (Option MsgObj) :=
  s.msgRefs.map (fun r => heap[r]?)

/-- A field assignment through a message-object reference
(`msg.content = ...`): updates the heap cell in place. -/
def heapWrite (heap : MsgHeap) (r : Nat) (m : MsgObj) : MsgHeap :=
  heap.set r m

/-! ## Claims -/

/-- The spec's wording of extractVariables, for comparison with the
extract function of the source: over the four nesting paths in order,
return the first one holding a non-empty object after the
null/undefined/empty-string values are dropped; null when no path
yields anything usable. -/
def extractSpecRead (data : JSVal) : Option (List (String × JSVal)) :=
  let cands := [getF data "variables", getOpt (getF data "metadata") "variables",
                getF data "extracted_variables", getOpt (getF data "state") "variables"]
  (cands.map (fun v => filterVars (objEntries v))).find? (fun fs => fs.length > 0)

/-- A response whose top-level `variables` is an empty object while
`metadata.variables` holds a usable entry. -/
def dataC2 : JSVal :=
  vObj [("variables", vObj []),
        ("metadata", vObj [("variables", vObj [("a", vStr "x")])])]

/-- C2 counterexample: extract does not return the first NON-EMPTY
object across the four paths. On a response with an empty top-level
`variables` object and a usable `metadata.variables`, the first truthy
object (the empty one) is selected, filtering leaves nothing, and
extract returns null instead of falling through to the non-empty
`metadata.variables` that the spec's wording would return. -/
theorem C2_counterexample :
    extract dataC2 = none ∧ extractSpecRead dataC2 = some [("a", vStr "x")] :=
  ⟨rfl, rfl⟩

/-- The four candidate nesting paths extractVariables probes, in the
source's fixed order: top-level `variables`, `metadata.variables`,
`extracted_variables`, `state.variables`. -/
def candidatePaths (data : JSVal) : List JSVal :=
  [getF data "variables", getOpt (getF data "metadata") "variables",
   getF data "extracted_variables", getOpt (getF data "state") "variables"]

/-- First element of a candidate list that is a truthy object. -/
def firstUsablePath : List JSVal → Option JSVal
  | [] => none
  | v :: rest =>
    if jsTruthy v && typeofIsObject v then some v else firstUsablePath rest

/-- The amended claim about extractVariables, written out order-first:
among the four candidate paths in the order top-level `variables`,
`metadata.variables`, `extracted_variables`, `state.variables`, select
the first holding a truthy object — even an empty one — filter only
that object, and return null when the filtered result is empty or when
no path holds a truthy object; there is no falling through to a later
path. -/
def extractAmendedSpec (data : JSVal) : Option (List (String × JSVal)) :=
  if !jsTruthy data || !typeofIsObject data then none
  else
    match (candidatePaths data).find? (fun v => jsTruthy v && typeofIsObject v) with
    | none => none
    | some vars =>
      let filtered := filterVars (objEntries vars)
      if filtered.length > 0 then some filtered else none

/-- A straight-line first-match search over a list coincides with
List.find? for the usability predicate. -/
lemma firstUsablePath_eq_find (l : List JSVal) :
    firstUsablePath l = l.find? (fun v => jsTruthy v && typeofIsObject v) := by
  induction l with
  | nil => rfl
  | cons v rest ih =>
    unfold firstUsablePath
    rw [List.find?_cons]
    cases h : jsTruthy v && typeofIsObject v <;> simp [h, ih]

/-- The nested-if search of findVariables is the first-match search over
the candidate paths in their source order. -/
lemma findVariables_eq_find (data : JSVal) :
    findVariables data
      = (candidatePaths data).find? (fun v => jsTruthy v && typeofIsObject v) := by
  have hfp : findVariables data = firstUsablePath (candidatePaths data) := rfl
  rw [hfp, firstUsablePath_eq_find]

/-- C2 amended: extract coincides, on every input, with the order-first
reading extractAmendedSpec — it probes exactly the four nesting paths in
the order top-level `variables`, `metadata.variables`,
`extracted_variables`, `state.variables`, selects the first holding a
truthy object even when that object is empty, filters only the selected
object, and returns null when the filtered result is empty or when no
path holds a truthy object, never falling through to a later path. In
particular a top-level `variables` object is preferred over every later
path. -/
theorem C2_amended_thm (data : JSVal) : extract data = extractAmendedSpec data := by
  unfold extract extractAmendedSpec
  rw [findVariables_eq_find]

/-- C10: isChatEnded is not total — the input null passes the
`typeof data === 'object'` test, the function then reads a field of
null, and the call throws a TypeError instead of returning a boolean. -/
theorem C10_isChatEnded_null :
    typeofIsObject vNull = true ∧
    isChatEnded vNull =
      Except.error "TypeError: cannot read property chat_status of null" :=
  ⟨rfl, rfl⟩

/-- C5: a pollStatus (checkIfChatEnded) call made while the session's
creation timestamp is within the 2000 ms grace window returns false and
leaves the state unchanged — no transition to ended, no events —
whatever the gateway status outcome would have been, including a
synthesized ended shape. -/
theorem C5_graceWindow (os : OrchState) (now : Nat) (api : Except String JSVal)
    (t : Nat) (h1 : os.store.createdAt = some t) (h2 : t ≠ 0)
    (h3 : now - t < 2000) :
    ChatOrchestrator.checkIfChatEnded os now api = (os, [], false) := by
  unfold ChatOrchestrator.checkIfChatEnded
  have hr : os.store.isRecentlyCreated 2000 now = true := by
    simp [ChatStateStore.isRecentlyCreated, h1, h2, h3]
  rw [hr]
  split <;> rfl

/-- A freshly created active session (created at 100). -/
def osC5 : OrchState :=
  { store := { ChatStateStore.init with
      chatId := some "chat_1", isActive := true, createdAt := some 100 },
    hist := ChatHistoryStore.empty }

/-- C5 witness: within the grace window (now = 500, created at 100) the
poll returns false untouched even though the gateway reports the
synthesized 404 ended shape. -/
theorem C5_witness :
    ChatOrchestrator.checkIfChatEnded osC5 500
      (.ok (vObj [("status", vStr "ended"), ("ended", vBool true)]))
      = (osC5, [], false) :=
  C5_graceWindow osC5 500 _ 100 rfl (by decide) (by decide)

/-- EventBus.runHandlers invokes every handler of the list, in order,
on the payload, regardless of earlier outcomes. -/
theorem runHandlers_eq_map {P R : Type} (hs : List (Handler P R)) (payload : P) :
    EventBus.runHandlers hs payload = hs.map (fun h => (h.id, h.fn payload)) := by
  induction hs with
  | nil => rfl
  | cons h rest ih =>
    unfold EventBus.runHandlers
    cases hfn : h.fn payload <;> simp [ih, hfn]

/-- C8: emit invokes all handlers currently registered for the event,
synchronously in insertion (storage) order, each with the same payload;
the trace contains one entry per registered handler, so a handler that
throws (an error outcome) does not prevent any later handler from being
invoked with that payload. -/
theorem C8_emit_all {P R : Type} (bus : EventBus P R) (event : String) (payload : P) :
    EventBus.emit bus event payload
      = (EventBus.listenersOf bus event).map (fun h => (h.id, h.fn payload)) :=
  runHandlers_eq_map (EventBus.listenersOf bus event) payload

/-- An active session with no messages yet, created at 100. -/
def osC1 : OrchState :=
  { store := { ChatStateStore.init with
      chatId := some "chat_1", isActive := true, createdAt := some 100 },
    hist := ChatHistoryStore.empty }

/-- A send response that both signals termination (status ended) and
carries a final agent reply. -/
def dataC1 : JSVal :=
  vObj [("status", vStr "ended"),
        ("messages", vArr [vObj [("role", vStr "agent"), ("content", vStr "Goodbye!")]])]

/-- C1 counterexample: when sendMessage detects the ended-signal in the
send response it marks the session ended and then still appends the
agent reply of that same response — the event trace shows
messageReceived after chatEnded, the final state is inactive, and the
messages list has grown by the agent message appended after the
transition. -/
theorem C1_counterexample :
    (ChatOrchestrator.sendMessage osC1 "hi" false 1000 (.ok dataC1)).2.1 =
      [OEvent.messageSent ⟨"user", vStr "hi", 1000⟩,
       OEvent.chatEnded (some "chat_1") (some true),
       OEvent.messageReceived ⟨"agent", vStr "Goodbye!", 1000⟩] ∧
    (ChatOrchestrator.sendMessage osC1 "hi" false 1000 (.ok dataC1)).1.store.isActive = false ∧
    (ChatOrchestrator.sendMessage osC1 "hi" false 1000 (.ok dataC1)).1.store.messages =
      [⟨"user", vStr "hi", 1000⟩, ⟨"agent", vStr "Goodbye!", 1000⟩] :=
  ⟨rfl, rfl, rfl⟩

/-- C1 amended: in any state whose active flag is already false, no
orchestrator operation appends a message — sendMessage rejects with the
contract error without touching the list, and checkIfChatEnded and
endChat leave the list unchanged. The only append after a transition to
inactive happens inside the very sendMessage call that detected the
ended-signal, which still appends the agent reply of that response. -/
theorem C1_amended_thm (os : OrchState) (h : os.store.isActive = false) :
    (∀ m skip now api,
      (ChatOrchestrator.sendMessage os m skip now api).1.store.messages
          = os.store.messages ∧
      (ChatOrchestrator.sendMessage os m skip now api).2.2 = .error .noActiveChat) ∧
    (∀ now api,
      (ChatOrchestrator.checkIfChatEnded os now api).1.store.messages
        = os.store.messages) ∧
    (∀ api,
      (ChatOrchestrator.endChat os api).1.store.messages = os.store.messages) := by
  have hact : os.store.isActiveChat = false := by
    unfold ChatStateStore.isActiveChat
    rw [h]
    rfl
  have hg : (!os.store.chatIdTruthy || !os.store.isActive) = true := by
    rw [h]; simp
  refine ⟨?_, ?_, ?_⟩
  · intro m skip now api
    unfold ChatOrchestrator.sendMessage
    rw [hact]
    exact ⟨rfl, rfl⟩
  · intro now api
    unfold ChatOrchestrator.checkIfChatEnded
    rw [hg]
    rfl
  · intro api
    unfold ChatOrchestrator.endChat
    rw [hg]
    rfl

/-- An ended session still holding its transcript. -/
def osC1w : OrchState :=
  { store := { ChatStateStore.init with
      chatId := some "chat_1", isActive := false,
      messages := [⟨"user", vStr "hey", 1⟩], createdAt := some 100 },
    hist := ChatHistoryStore.empty }

/-- C1 witness: on a concrete ended session neither a further send nor a
poll reporting ended appends anything. -/
theorem C1_witness :
    (ChatOrchestrator.sendMessage osC1w "more" false 5 (.ok vNull)).1.store.messages
      = osC1w.store.messages ∧
    (ChatOrchestrator.checkIfChatEnded osC1w 5000
        (.ok (vObj [("ended", vBool true)]))).1.store.messages
      = osC1w.store.messages :=
  ⟨((C1_amended_thm osC1w rfl).1 "more" false 5 (.ok vNull)).1,
   (C1_amended_thm osC1w rfl).2.1 5000 (.ok (vObj [("ended", vBool true)]))⟩

/-- An ended (not active) session with a non-empty transcript. -/
def osC3 : OrchState :=
  { store := { ChatStateStore.init with
      chatId := some "chat_1", isActive := false,
      messages := [⟨"user", vStr "hey", 1⟩], createdAt := some 100 },
    hist := ChatHistoryStore.empty }

/-- C3 counterexample: endChat invoked on a session that is not active
does not throw — it resolves normally with no event and no state change
(a silent no-op apart from a console warning), contradicting the claim
that endSession fails loudly in such a state. -/
theorem C3_counterexample :
    ChatOrchestrator.endChat osC3 (.ok ()) = (osC3, [], Except.ok ()) := rfl

/-- C3 amended: outside the active state sendMessage fails loudly with
the contract error, checkIfChatEnded safely returns false, and endChat
(unlike the claim) is a silent no-op that logs a warning and resolves
normally; all three leave the state unchanged and emit nothing. -/
theorem C3_amended_thm (os : OrchState) (h : os.store.isActiveChat = false) :
    (∀ m skip now api,
      ChatOrchestrator.sendMessage os m skip now api
        = (os, [], .error .noActiveChat)) ∧
    (∀ now api, ChatOrchestrator.checkIfChatEnded os now api = (os, [], false)) ∧
    (∀ api, ChatOrchestrator.endChat os api = (os, [], .ok ())) := by
  have hg : (!os.store.chatIdTruthy || !os.store.isActive) = true := by
    unfold ChatStateStore.isActiveChat at h
    cases hA : os.store.isActive <;> cases hC : os.store.chatIdTruthy <;> simp_all
  refine ⟨?_, ?_, ?_⟩
  · intro m skip now api
    unfold ChatOrchestrator.sendMessage
    rw [h]
    rfl
  · intro now api
    unfold ChatOrchestrator.checkIfChatEnded
    rw [hg]
    rfl
  · intro api
    unfold ChatOrchestrator.endChat
    rw [hg]
    rfl

/-- C3 witness: the amended theorem evaluated on the concrete ended
session — send rejects with the contract error and the poll returns
false. -/
theorem C3_witness :
    ChatOrchestrator.sendMessage osC3 "hi" false 9 (.ok vNull)
      = (osC3, [], .error .noActiveChat) ∧
    ChatOrchestrator.checkIfChatEnded osC3 9 (.ok vNull) = (osC3, [], false) :=
  ⟨(C3_amended_thm osC3 rfl).1 "hi" false 9 (.ok vNull),
   (C3_amended_thm osC3 rfl).2.1 9 (.ok vNull)⟩

/-- An active session with one message, created at 100. -/
def osC4 : OrchState :=
  { store := { ChatStateStore.init with
      chatId := some "chat_1", isActive := true,
      messages := [⟨"user", vStr "hey", 1⟩], createdAt := some 100 },
    hist := ChatHistoryStore.empty }

/-- The autoEnded field of an event, when the event is chatEnded. -/
def autoEndedField : OEvent → Option (Option Bool)
  | .chatEnded _ a => some a
  | _ => none

/-- C4 counterexample: on gateway success endChat publishes a single
chatEnded event whose payload omits the autoEnded field entirely
(modelled as none), which is not the claimed autoEnded:false payload. -/
theorem C4_counterexample :
    ((ChatOrchestrator.endChat osC4 (.ok ())).2.1).map autoEndedField = [some none] ∧
    (some (none : Option Bool)) ≠ some (some false) :=
  ⟨rfl, by decide⟩

/-- C4 amended: called on an active session, endChat on gateway success
resets the whole session state (the active flag becomes false together
with the id, messages and variables being cleared) and publishes a
chatEnded event carrying only the chat id, with no autoEnded field; on
gateway failure it publishes the error event, rethrows, and leaves the
state unchanged. -/
theorem C4_amended_thm (os : OrchState) (h : os.store.isActiveChat = true) :
    (ChatOrchestrator.endChat os (.ok ()) =
      ({ os with store := os.store.reset },
       [OEvent.chatEnded os.store.chatId none], .ok ())) ∧
    (∀ e, ChatOrchestrator.endChat os (.error e)
      = (os, [OEvent.errorEvt e], .error e)) := by
  have hg : (!os.store.chatIdTruthy || !os.store.isActive) = false := by
    unfold ChatStateStore.isActiveChat at h
    cases hA : os.store.isActive <;> cases hC : os.store.chatIdTruthy <;> simp_all
  constructor
  · unfold ChatOrchestrator.endChat
    rw [hg]
    rfl
  · intro e
    unfold ChatOrchestrator.endChat
    rw [hg]
    rfl

/-- C4 witness: the amended theorem evaluated at the concrete active
session on the failure branch. -/
theorem C4_witness :
    ChatOrchestrator.endChat osC4 (.error "boom")
      = (osC4, [OEvent.errorEvt "boom"], .error "boom") :=
  (C4_amended_thm osC4 rfl).2 "boom"

/-- Looking up an id in the history after the saveChat upsert (replace
the entry at the found index, else append) finds the upserted entry,
whichever branch was taken. -/
lemma find_upsert (l : List ChatSession) (cs : ChatSession) (id : String)
    (hcs : cs.id = id) :
    (match jsFindIndex (fun (c : ChatSession) => strictEqOptStr (some id) c.id) l with
     | some i => l.set i cs
     | none => l ++ [cs]).find? (fun c => c.id = id) = some cs := by
  induction l with
  | nil =>
    simp only [jsFindIndex, List.nil_append]
    exact List.find?_cons_of_pos _ (by simp [hcs])
  | cons a l ih =>
    cases hA : strictEqOptStr (some id) a.id with
    | true =>
      unfold jsFindIndex
      rw [hA]
      simp only [if_true, List.set_cons_zero]
      exact List.find?_cons_of_pos _ (by simp [hcs])
    | false =>
      unfold jsFindIndex
      rw [hA]
      simp only [Bool.false_eq_true, if_false]
      have hAne : ¬(a.id = id) := by
        simp only [strictEqOptStr, beq_eq_false_iff_ne, ne_eq] at hA
        exact fun he => hA he.symm
      cases hF : jsFindIndex (fun (c : ChatSession) => strictEqOptStr (some id) c.id) l with
      | none =>
        rw [hF] at ih
        simp only [hF, Option.map_none', List.cons_append]
        rw [List.find?_cons_of_neg _ (by simpa using hAne)]
        exact ih
      | some i =>
        rw [hF] at ih
        simp only [hF, Option.map_some', List.set_cons_succ]
        rw [List.find?_cons_of_neg _ (by simpa using hAne)]
        exact ih

/-- Rebuilding each message from its role, content and timestamp fields
is the identity (the copy semantics of the saveChat message snapshot). -/
lemma map_snapshot_id (msgs : List Message) :
    msgs.map (fun m =>
      ({ role := m.role, content := m.content, timestamp := m.timestamp } : Message))
      = msgs := by
  have he : (fun (m : Message) =>
      ({ role := m.role, content := m.content, timestamp := m.timestamp } : Message))
      = fun m => m := rfl
  rw [he, List.map_id']

/-- A findE whose predicate succeeds on every element of the list
succeeds, and any element it finds belongs to the list. -/
lemma findE_ok {α : Type} (p : α → Except String Bool) (l : List α)
    (hp : ∀ a ∈ l, ∃ b, p a = .ok b) :
    ∃ r, findE p l = .ok r ∧ ∀ x, r = some x → x ∈ l := by
  induction l with
  | nil => exact ⟨none, rfl, fun x hx => absurd hx (by simp)⟩
  | cons a l ih =>
    obtain ⟨b, hb⟩ := hp a (List.mem_cons_self a l)
    obtain ⟨r, hr, hmem⟩ := ih (fun x hx => hp x (List.mem_cons_of_mem _ hx))
    cases b with
    | true =>
      refine ⟨some a, by unfold findE; rw [hb], fun x hx => ?_⟩
      cases hx
      exact List.mem_cons_self a l
    | false =>
      refine ⟨r, by unfold findE; rw [hb]; exact hr,
        fun x hx => List.mem_cons_of_mem _ (hmem x hx)⟩

/-- getPreview succeeds on every message list whose contents are all
strings: no find predicate and no truncation throws. -/
lemma getPreview_ok (msgs : List Message)
    (hstr : ∀ m ∈ msgs, ∃ s, m.content = vStr s) :
    ∃ p, getPreview msgs = .ok p := by
  have hup : ∀ m ∈ msgs, ∃ b, previewUserPred m = .ok b := by
    intro m hm
    obtain ⟨s, hs⟩ := hstr m hm
    unfold previewUserPred
    rw [hs]
    split
    · split
      · exact ⟨_, rfl⟩
      · exact ⟨false, rfl⟩
    · exact ⟨false, rfl⟩
  obtain ⟨r, hr, hmem⟩ := findE_ok previewUserPred msgs hup
  unfold getPreview
  rw [hr]
  cases r with
  | some userMsg =>
    obtain ⟨s, hs⟩ := hstr userMsg (hmem userMsg rfl)
    exact ⟨truncatePreview s, by simp [hs, jsStrMethod]⟩
  | none =>
    obtain ⟨r2, hr2, hmem2⟩ :=
      findE_ok previewAgentPred msgs (fun m _ => ⟨_, rfl⟩)
    rw [hr2]
    cases r2 with
    | some agentMsg =>
      obtain ⟨s, hs⟩ := hstr agentMsg (hmem2 agentMsg rfl)
      exact ⟨truncatePreview s, by simp [hs, jsStrMethod]⟩
    | none => exact ⟨_, rfl⟩

/-- C6 counterexample: the round-trip does not hold for every non-empty
message list — saving a session whose single agent message carries the
truthy non-string content 42 (reachable, since extractBotResponse
passes any truthy vendor content through to addMessage) throws a
TypeError from getPreview's string-method call, so nothing is saved and
there is no entry to fetch back. -/
theorem C6_counterexample :
    ChatHistoryStore.empty.saveChat (some "chat_1") [⟨"agent", vNum 42, 1⟩] [] 9
      = Except.error "TypeError: not a function" ∧
    ChatHistoryStore.empty.getById "chat_1" = none :=
  ⟨rfl, rfl⟩

/-- C6 amended: for every non-empty message list whose contents are all
strings (the shapes the store itself produces; a truthy non-string
content instead makes saveChat throw a TypeError before writing
anything) and every usable id, saving the session and fetching it back
by that id succeeds and returns an entry whose messages deep-equal the
saved input, in order. -/
theorem C6_roundtrip (h : ChatHistoryStore) (id : String) (msgs : List Message)
    (vars : List (String × JSVal)) (now : Nat) (hid : id ≠ "") (hm : msgs ≠ [])
    (hstr : ∀ m ∈ msgs, ∃ s, m.content = vStr s) :
    (h.saveChat (some id) msgs vars now).map
        (fun h2 => (h2.getById id).map (fun e => e.messages))
      = Except.ok (some msgs) := by
  cases msgs with
  | nil => exact absurd rfl hm
  | cons m ms =>
    obtain ⟨p, hp⟩ := getPreview_ok (m :: ms) hstr
    unfold ChatHistoryStore.saveChat
    rw [hp]
    simp only [List.isEmpty_cons, if_false, Bool.false_eq_true]
    rw [if_neg hid]
    unfold ChatHistoryStore.getById ChatHistoryStore.save
    simp only [Except.map]
    rw [find_upsert h.history _ id rfl]
    simp [Option.map_some', map_snapshot_id]

/-- C6 witness: the amended round-trip evaluated on the empty store with
one concrete string-content message. -/
theorem C6_witness :
    (ChatHistoryStore.empty.saveChat (some "chat_1")
        [⟨"user", vStr "hey", 1⟩] [] 50).map
        (fun h2 => (h2.getById "chat_1").map (fun e => e.messages))
      = Except.ok (some [⟨"user", vStr "hey", 1⟩]) :=
  C6_roundtrip ChatHistoryStore.empty "chat_1" _ [] 50 (by decide)
    (List.cons_ne_nil _ _)
    (by
      intro m hm
      rw [List.mem_singleton] at hm
      exact ⟨"hey", by rw [hm]⟩)

/-- The i-th of 50 distinct persisted sessions. -/
def mkEntryC7 (i : Nat) : ChatSession :=
  { id := "s" ++ toString i, timestamp := i, date := i,
    messages := [⟨"user", vStr "hi there", 1⟩], variablesMap := [], preview := "p" }

/-- A history store already holding 50 distinct sessions. -/
def histC7 : ChatHistoryStore :=
  { history := (List.range 50).map mkEntryC7,
    storage := (List.range 50).map mkEntryC7 }

/-- C7 counterexample: inserting a 51st distinct session into a store of
50 succeeds and leaves 51 entries in the store (its count and listing),
not the claimed exactly 50 — the cap is applied only to the serialized
snapshot written by save, never to the live list. -/
theorem C7_counterexample :
    (histC7.saveChat (some "s50") [⟨"user", vStr "hi", 99⟩] [] 99).map
        (fun h2 => h2.count) = Except.ok 51 ∧
    (51 : Nat) ≠ 50 :=
  ⟨rfl, by decide⟩

/-- C7 amended: inserting a 51st distinct non-empty session whose
contents are strings (on a truthy non-string content saveChat throws
from getPreview and inserts nothing) succeeds and keeps all 51 entries
in the in-memory store, while the persisted snapshot is capped at 50 by
dropping the first-inserted (oldest) entry: it equals the new list with
its head removed, so it has exactly 50 entries. -/
theorem C7_amended_thm (h : ChatHistoryStore) (id : String) (msgs : List Message)
    (vars : List (String × JSVal)) (now : Nat)
    (hid : id ≠ "") (hm : msgs ≠ [])
    (hstr : ∀ m ∈ msgs, ∃ s, m.content = vStr s)
    (hlen : h.history.length = 50)
    (hfresh : jsFindIndex (fun (c : ChatSession) => strictEqOptStr (some id) c.id) h.history = none) :
    ∃ h2, h.saveChat (some id) msgs vars now = Except.ok h2 ∧
      h2.count = 51 ∧ h2.storage = h2.history.drop 1 ∧ h2.storage.length = 50 := by
  cases msgs with
  | nil => exact absurd rfl hm
  | cons m ms =>
    obtain ⟨p, hp⟩ := getPreview_ok (m :: ms) hstr
    unfold ChatHistoryStore.saveChat
    rw [hp]
    simp only [List.isEmpty_cons, if_false, Bool.false_eq_true]
    rw [if_neg hid, hfresh]
    refine ⟨_, rfl, ?_, ?_, ?_⟩
    · unfold ChatHistoryStore.save ChatHistoryStore.count
      simp [hlen]
    · unfold ChatHistoryStore.save MAX_CHATS
      simp [hlen]
    · unfold ChatHistoryStore.save MAX_CHATS
      simp [hlen]

/-- C7 witness: the amended theorem evaluated on the concrete 50-entry
store with a fresh 51st string-content session — the persisted snapshot
holds exactly 50 entries. -/
theorem C7_witness :
    (histC7.saveChat (some "s50") [⟨"user", vStr "hi", 99⟩] [] 99).map
        (fun h2 => h2.storage.length) = Except.ok 50 := by
  obtain ⟨h2, heq, hc, hd, hl⟩ :=
    C7_amended_thm histC7 "s50" [⟨"user", vStr "hi", 99⟩] [] 99 (by decide)
      (List.cons_ne_nil _ _)
      (by
        intro m hm
        rw [List.mem_singleton] at hm
        exact ⟨"hi", by rw [hm]⟩)
      rfl rfl
  rw [heq]
  simp only [Except.map, hl]

/-- The internal message list of a one-message session, as references. -/
def storeC9 : StoreRefs := ⟨[0]⟩

/-- A heap holding the single message object of that session. -/
def heapC9 : MsgHeap := [⟨"user", "hi", 1⟩]

/-- C9 counterexample: the messages getter is a shallow copy — it hands
out the same message-object reference the store holds internally, so a
caller field-assignment through that reference changes the message
content observable through the store's internal state from "hi" to
"HACKED". -/
theorem C9_counterexample :
    messagesGetter storeC9 = [0] ∧
    (observedMessages (heapWrite heapC9 0 ⟨"user", "HACKED", 1⟩) storeC9).map
        (fun o => o.map (fun m => m.content)) = [some "HACKED"] ∧
    (observedMessages heapC9 storeC9).map
        (fun o => o.map (fun m => m.content)) = [some "hi"] ∧
    ([some "HACKED"] : List (Option String)) ≠ [some "hi"] :=
  ⟨rfl, rfl, rfl, by decide⟩

/-- C9 amended: the getters return shallow copies — the returned array
is fresh but carries the very references of the internal array, so
container-level changes by the caller touch only the copy, while writes
to any object not referenced internally leave the observed messages
unchanged; mutation is visible internally exactly through the shared
message-object references the getter exposes. -/
theorem C9_amended_thm (heap : MsgHeap) (s : StoreRefs) (a : Nat) (m : MsgObj)
    (h : a ∉ s.msgRefs) :
    messagesGetter s = s.msgRefs ∧
    observedMessages (heapWrite heap a m) s = observedMessages heap s := by
  constructor
  · exact List.map_id' s.msgRefs
  · unfold observedMessages heapWrite
    apply List.map_congr_left
    intro r hr
    have hne : a ≠ r := fun he => h (he ▸ hr)
    exact List.getElem?_set_ne hne

/-- C9 witness: writing to an unshared heap cell (address 5) leaves the
observed messages of the one-message session unchanged. -/
theorem C9_witness :
    observedMessages (heapWrite heapC9 5 ⟨"user", "HACKED", 1⟩) storeC9
      = observedMessages heapC9 storeC9 :=
  (C9_amended_thm heapC9 storeC9 5 ⟨"user", "HACKED", 1⟩ (by decide)).2

end FlexSpace
